import Mathlib

/-!
Shallow embedding of the child-learn client core: the data loader
(`src/js/dataLoader.js`), the search engine and the client-side router
(`src/unnamed/part_001`), together with the query-string helper
`parseQueryString` (`src/js/utils.js`).  Machine time is modelled as `Int`
milliseconds (JS `Date.now()`), the network transport as an explicit function
from attempt index to `Except`-valued responses, and JS objects holding string
parameters as association lists where a later binding shadows an earlier one
(JS object spread).
-/

namespace ChildLearn

/-- Lookup in a JS-object model: an association list where the *last* binding
for a key wins, matching JS object-literal / spread semantics. -/
def objGet (o : List (String × String)) (k : String) : Option String :=
  (o.reverse.find? (fun p => p.1 == k)).map (fun p => p.2)

/-- A content item as far as the core inspects it (`id`, `title`,
`description`); all other fields are passthrough payload never read by the
embedded logic.  `title`/`description` may be absent (`null`/`undefined`). -/
structure ContentItem where
  id : String
  title : Option String
  description : Option String
deriving DecidableEq, Repr

/-- One entry of `recommendations.json`: `{ contentId, reason?, priority }`. -/
structure RecEntry where
  contentId : String
  reason : Option String
  priority : Int
deriving DecidableEq, Repr

/-- The optional `performance` sub-object of `config.json`. -/
structure PerformanceConfig where
  cacheDuration : Option Int
deriving DecidableEq, Repr

/-- The parsed body of `config.json` as far as `loadConfig` inspects it:
`site`, `contentTypes` and `ageRatings` are modelled by their JS truthiness
(the validation only tests `!data.site || !data.contentTypes ||
!data.ageRatings`), while `performance.cacheDuration` is read for the TTL
override. -/
structure ConfigData where
  site : Bool
  contentTypes : Bool
  ageRatings : Bool
  performance : Option PerformanceConfig
deriving DecidableEq, Repr

/-- Parsed body of `content.json`: the `content` field is `some` exactly when
it is present and an array (the validation is `!data.content ||
!Array.isArray(data.content)`). -/
structure ContentPayload where
  content : Option (List ContentItem)
deriving DecidableEq, Repr

/-- Parsed body of `recommendations.json`, analogous to `ContentPayload`. -/
structure RecsPayload where
  recommendations : Option (List RecEntry)
deriving DecidableEq, Repr

/-- One slot of `this.cache`: `{ data: ... | null, timestamp: ... | null }`. -/
structure CacheSlot (α : Type) where
  data : Option α
  timestamp : Option Int
deriving DecidableEq, Repr

/-- The mutable state of a `DataLoader` instance: the three cache slots and
the configuration fields `cacheDuration`, `maxRetries`, `retryDelay`. -/
structure LoaderState where
  contentCache : CacheSlot (List ContentItem)
  configCache : CacheSlot ConfigData
  recsCache : CacheSlot (List RecEntry)
  cacheDuration : Int
  maxRetries : Nat
  retryDelay : Int
deriving DecidableEq, Repr

/-- The state built by the `DataLoader` constructor: empty slots, one-hour
TTL, three retries, one-second delay. -/
def initialState : LoaderState where
  contentCache := ⟨none, none⟩
  configCache := ⟨none, none⟩
  recsCache := ⟨none, none⟩
  cacheDuration := 3600000
  maxRetries := 3
  retryDelay := 1000

/-- Models `DataLoader.isCacheValid`: false when `data` or `timestamp` is
falsy (`null`, or the number `0` for the timestamp; cached `data` is always an
array or object, hence truthy when present), otherwise tests
`now - timestamp < cacheDuration` strictly. -/
def isCacheValid (slot : CacheSlot α) (cacheDuration now : Int) : Bool :=
  match slot.data, slot.timestamp with
  | some _, some t => t != 0 && decide (now - t < cacheDuration)
  | _, _ => false

/-- Outcome of `fetchWithRetry`: the final result, how many times the
transport was invoked, and the total time spent in inter-attempt delays. -/
structure FetchOutcome (α : Type) where
  result : Except String α
  calls : Nat
  waited : Int
deriving Repr

/-- Models `DataLoader.fetchWithRetry`.  The transport is a function from the
attempt index to that attempt's outcome (a thrown error is `Except.error` with
the error's message; a non-ok HTTP status is already folded into the error
case, as is a body-parse failure).  On failure with `retries > 0` it waits
`retryDelay` and retries with `retries - 1`; attempts are sequential. -/
def fetchWithRetry (transport : Nat → Except String α) (attempt : Nat)
    (retries : Nat) (retryDelay : Int) : FetchOutcome α :=
  match transport attempt with
  | .ok v => ⟨.ok v, 1, 0⟩
  | .error e =>
    match retries with
    | 0 => ⟨.error e, 1, 0⟩
    | r + 1 =>
      let rest := fetchWithRetry transport (attempt + 1) r retryDelay
      ⟨rest.result, rest.calls + 1, rest.waited + retryDelay⟩

/-- Outcome of one per-dataset load: the returned value or thrown error, the
loader state after the call, the number of transport invocations, and the
total retry-delay time. -/
structure LoadOutcome (α : Type) where
  result : Except String α
  state : LoaderState
  transportCalls : Nat
  waited : Int

/-- The `catch` block of `loadContent`: return the old cached data if any
(even expired), otherwise rethrow wrapped. -/
def contentFallback (st : LoaderState) (e : String) (calls : Nat)
    (waited : Int) : LoadOutcome (List ContentItem) :=
  match st.contentCache.data with
  | some d => ⟨.ok d, st, calls, waited⟩
  | none => ⟨.error ("无法加载内容数据: " ++ e), st, calls, waited⟩

/-- Models `DataLoader.loadContent`: fresh cache short-circuits with the
cached data (when the slot is valid its `data` is present, so the `getD`
default is never used); otherwise fetch with retry, validate the `content`
field, cache and return it, falling back to stale data on any failure. -/
def loadContent (st : LoaderState) (now : Int)
    (transport : Nat → Except String ContentPayload) :
    LoadOutcome (List ContentItem) :=
  if isCacheValid st.contentCache st.cacheDuration now then
    ⟨.ok (st.contentCache.data.getD []), st, 0, 0⟩
  else
    let fr := fetchWithRetry transport 0 st.maxRetries st.retryDelay
    match fr.result with
    | .ok payload =>
      match payload.content with
      | some items =>
        ⟨.ok items, { st with contentCache := ⟨some items, some now⟩ },
          fr.calls, fr.waited⟩
      | none => contentFallback st "内容数据格式无效" fr.calls fr.waited
    | .error e => contentFallback st e fr.calls fr.waited

/-- The `catch` block of `loadRecommendations`. -/
def recsFallback (st : LoaderState) (e : String) (calls : Nat)
    (waited : Int) : LoadOutcome (List RecEntry) :=
  match st.recsCache.data with
  | some d => ⟨.ok d, st, calls, waited⟩
  | none => ⟨.error ("无法加载推荐数据: " ++ e), st, calls, waited⟩

/-- Models `DataLoader.loadRecommendations`, same shape as `loadContent`. -/
def loadRecommendations (st : LoaderState) (now : Int)
    (transport : Nat → Except String RecsPayload) :
    LoadOutcome (List RecEntry) :=
  if isCacheValid st.recsCache st.cacheDuration now then
    ⟨.ok (st.recsCache.data.getD []), st, 0, 0⟩
  else
    let fr := fetchWithRetry transport 0 st.maxRetries st.retryDelay
    match fr.result with
    | .ok payload =>
      match payload.recommendations with
      | some recs =>
        ⟨.ok recs, { st with recsCache := ⟨some recs, some now⟩ },
          fr.calls, fr.waited⟩
      | none => recsFallback st "推荐数据格式无效" fr.calls fr.waited
    | .error e => recsFallback st e fr.calls fr.waited

/-- The `catch` block of `loadConfig`. -/
def configFallback (st : LoaderState) (e : String) (calls : Nat)
    (waited : Int) : LoadOutcome ConfigData :=
  match st.configCache.data with
  | some d => ⟨.ok d, st, calls, waited⟩
  | none => ⟨.error ("无法加载配置数据: " ++ e), st, calls, waited⟩

/-- Models `DataLoader.loadConfig`: like the other loads, but additionally
applies the `performance.cacheDuration` TTL override when that field is
present and truthy (a `0` override is falsy in JS and hence not applied). -/
def loadConfig (st : LoaderState) (now : Int)
    (transport : Nat → Except String ConfigData) : LoadOutcome ConfigData :=
  if isCacheValid st.configCache st.cacheDuration now then
    ⟨.ok (st.configCache.data.getD ⟨false, false, false, none⟩), st, 0, 0⟩
  else
    let fr := fetchWithRetry transport 0 st.maxRetries st.retryDelay
    match fr.result with
    | .ok payload =>
      if payload.site && payload.contentTypes && payload.ageRatings then
        let st1 :=
          match payload.performance with
          | some p =>
            match p.cacheDuration with
            | some c => if c != 0 then { st with cacheDuration := c } else st
            | none => st
          | none => st
        ⟨.ok payload, { st1 with configCache := ⟨some payload, some now⟩ },
          fr.calls, fr.waited⟩
      else configFallback st "配置数据格式无效" fr.calls fr.waited
    | .error e => configFallback st e fr.calls fr.waited

/-- A content item annotated by `getRecommendedContent` with the matching
recommendation's `reason` and `priority` (the JS spread
`{...item, recommendationReason, recommendationPriority}`). -/
structure RecommendedItem where
  item : ContentItem
  recommendationReason : Option String
  recommendationPriority : Int
deriving DecidableEq, Repr

/-- The join/sort pipeline inside `getRecommendedContent` (lines 204-217):
map each recommendation to the annotated matching item or `null`, drop the
`null`s, and sort ascending by priority with a stable sort (JS
`Array.prototype.sort` is stable). -/
def recommendedJoin (recs : List RecEntry) (content : List ContentItem) :
    List RecommendedItem :=
  (((recs.map (fun rec =>
      match content.find? (fun c => c.id == rec.contentId) with
      | some item => some ⟨item, rec.reason, rec.priority⟩
      | none => none)).reduceOption).mergeSort
    (fun a b => decide (a.recommendationPriority ≤ b.recommendationPriority)))

/-- Models `DataLoader.getRecommendedContent`: load recommendations, then
content (threading the loader state), rethrow either failure, else return the
joined and sorted list. -/
def getRecommendedContent (st : LoaderState) (now : Int)
    (recsTransport : Nat → Except String RecsPayload)
    (contentTransport : Nat → Except String ContentPayload) :
    LoadOutcome (List RecommendedItem) :=
  let r1 := loadRecommendations st now recsTransport
  match r1.result with
  | .error e => ⟨.error e, r1.state, r1.transportCalls, r1.waited⟩
  | .ok recs =>
    let r2 := loadContent r1.state now contentTransport
    match r2.result with
    | .error e =>
      ⟨.error e, r2.state, r1.transportCalls + r2.transportCalls,
        r1.waited + r2.waited⟩
    | .ok content =>
      ⟨.ok (recommendedJoin recs content), r2.state,
        r1.transportCalls + r2.transportCalls, r1.waited + r2.waited⟩

/-- Models JS `toLowerCase` at the character level (ASCII case folding via
`Char.toLower`; the catalog's search strings are ASCII/CJK, and CJK has no
case). -/
def toLowerStr (s : String) : String :=
  ⟨s.data.map Char.toLower⟩

/-- Models JS `trim` at the character level: drop leading and trailing
whitespace. -/
def trimChars (cs : List Char) : List Char :=
  ((cs.dropWhile Char.isWhitespace).reverse.dropWhile Char.isWhitespace).reverse

/-- Splitting at every character satisfying `p`, keeping empty chunks —
the behaviour of JS `split` with a single-character separator, and of
`split(/\s+/)` up to the empty chunks that the callers filter out anyway. -/
def splitOnPred (p : Char → Bool) : List Char → List (List Char)
  | [] => [[]]
  | c :: rest =>
    if p c then [] :: splitOnPred p rest
    else
      match splitOnPred p rest with
      | chunk :: chunks => (c :: chunk) :: chunks
      | [] => [[c]]

/-- Models JS `split(sep)` for a one-character separator. -/
def splitOnChar (sep : Char) (cs : List Char) : List (List Char) :=
  splitOnPred (fun c => c == sep) cs

/-- Character-list version of a string-starts-with test (JS engine primitive
underlying `String.prototype.includes`). -/
def hasPrefixChars : List Char → List Char → Bool
  | [], _ => true
  | _ :: _, [] => false
  | a :: as, b :: bs => a == b && hasPrefixChars as bs

/-- Whether `pat` occurs as a contiguous run inside `s`. -/
def hasInfixChars (pat : List Char) : List Char → Bool
  | [] => hasPrefixChars pat []
  | c :: rest => hasPrefixChars pat (c :: rest) || hasInfixChars pat rest

/-- Models JS `s.includes(pat)`: substring containment. -/
def strIncludes (s pat : String) : Bool :=
  hasInfixChars pat.data s.data

/-- The term list built by `SearchEngine.search`:
`keyword.toLowerCase().trim().split(/\s+/).filter(kw => kw !== '')`.
Splitting on every whitespace character and dropping empty chunks yields the
same list as splitting on whitespace runs. -/
def splitTerms (keyword : String) : List String :=
  ((splitOnPred Char.isWhitespace
      (trimChars (toLowerStr keyword).data)).map
    (fun cs => (⟨cs⟩ : String))).filter (fun kw => kw ≠ "")

/-- The per-item score loop of `SearchEngine.search`: each term adds 2 when it
occurs in the lower-cased title (`(item.title || '').toLowerCase()`) and 1
when it occurs in the lower-cased description. -/
def itemScore (keywords : List String) (item : ContentItem) : Nat :=
  let title := toLowerStr (item.title.getD "")
  let description := toLowerStr (item.description.getD "")
  keywords.foldl (fun score kw =>
    let score := if strIncludes title kw then score + 2 else score
    if strIncludes description kw then score + 1 else score) 0

/-- Models `SearchEngine.search` over the engine's data snapshot: guard empty
or whitespace-only keywords (`!keyword || keyword.trim() === ''`), split into
terms, collect `{item, score}` pairs for positive scores in data order, sort
descending by score (JS sort is stable), and return the items. -/
def search (data : List ContentItem) (keyword : String) : List ContentItem :=
  if trimChars keyword.data = [] then []
  else
    let keywords := splitTerms keyword
    if keywords.length = 0 then []
    else
      let results := data.foldl (fun acc item =>
        let score := itemScore keywords item
        if 0 < score then acc ++ [(item, score)] else acc) []
      (results.mergeSort (fun a b => decide (b.2 ≤ a.2))).map (fun r => r.1)

/-- Models `SearchEngine.setData`: `this.data = contentArray || []` (both
`null` and `undefined` are `none`; an array is truthy even when empty). -/
def setData (contentArray : Option (List ContentItem)) : List ContentItem :=
  contentArray.getD []

/-- Specification-side score of a single term against an item: 2 for a title
hit plus 1 for a description hit (written from the spec's wording in §4.3). -/
def termScore (item : ContentItem) (term : String) : Nat :=
  (if strIncludes (toLowerStr (item.title.getD "")) term then 2 else 0) +
  (if strIncludes (toLowerStr (item.description.getD "")) term then 1 else 0)

/-- Specification-side item score: the sum over the query's terms of
`termScore` (duplicated terms each contribute). -/
def scoreSpec (terms : List String) (item : ContentItem) : Nat :=
  (terms.map (termScore item)).sum

/-- One token of a compiled route pattern: a literal chunk or a `:name`
parameter (compiled to the regex group `([^/]+)`). -/
inductive PatternToken where
  | lit (s : String)
  | param (name : String)
deriving DecidableEq, Repr

/-- Whether a character matches the regex class `\w` used by the route
compiler's `:(\w+)` replacement (ASCII letters, digits, underscore). -/
def isWordChar (c : Char) : Bool :=
  c.isAlphanum || c == '_'

/-- Prepend a literal character to a token list, merging with a leading
literal token. -/
def consLit (c : Char) : List PatternToken → List PatternToken
  | .lit s :: ts => .lit (⟨[c]⟩ ++ s) :: ts
  | ts => .lit ⟨[c]⟩ :: ts

/-- Fuelled worker for `compileTokens`; the fuel only bounds the recursion
depth (each step consumes at least one character and one unit of fuel) so
that the definition is structural and computes inside the kernel. -/
def compileTokensGo : Nat → List Char → List PatternToken
  | _, [] => []
  | 0, _ :: _ => []
  | f + 1, ':' :: rest =>
    let nm := rest.takeWhile isWordChar
    if nm.isEmpty then consLit ':' (compileTokensGo f rest)
    else .param ⟨nm⟩ :: compileTokensGo f (rest.dropWhile isWordChar)
  | f + 1, c :: rest => consLit c (compileTokensGo f rest)

/-- Compile a route pattern the way `Router.register` does: each `:name`
(maximal run of word characters after a colon) becomes a parameter token, all
other characters stay literal.  Escaping `/` and wrapping in `^...$` are
reflected in `matchTokens` being anchored whole-path matching. -/
def compileTokens (cs : List Char) : List PatternToken :=
  compileTokensGo cs.length cs

/-- The ordered parameter names collected while compiling, in left-to-right
order of the `:name` occurrences. -/
def tokenParamNames (ts : List PatternToken) : List String :=
  ts.filterMap (fun t => match t with | .param n => some n | .lit _ => none)

/-- Fuelled worker for `matchTokens` (one unit of fuel per token, so the
definition is structural and computes inside the kernel).  A parameter is the
regex group `([^/]+)`: greedy with backtracking, which the descending
`findSome?` over candidate capture lengths implements — longest capture
first, at least one non-`/` character. -/
def matchTokensGo : Nat → List PatternToken → List Char → Option (List String)
  | _, [], [] => some []
  | _, [], _ :: _ => none
  | 0, _ :: _, _ => none
  | f + 1, .lit s :: ts, cs =>
    if s.data.isPrefixOf cs then matchTokensGo f ts (cs.drop s.data.length)
    else none
  | f + 1, .param _ :: ts, cs =>
    let maxK := (cs.takeWhile (fun c => c != '/')).length
    ((List.range maxK).map (fun i => maxK - i)).findSome? (fun k =>
      (matchTokensGo f ts (cs.drop k)).map
        (fun rest => (⟨cs.take k⟩ : String) :: rest))

/-- Anchored matching of a compiled pattern against a path, returning the
captured groups in order (the `^...$`-anchored regex built by `register`). -/
def matchTokens (ts : List PatternToken) (cs : List Char) :
    Option (List String) :=
  matchTokensGo ts.length ts cs

/-- Hexadecimal digit value, for percent-decoding. -/
def hexVal (c : Char) : Option Nat :=
  if '0' ≤ c ∧ c ≤ '9' then some (c.toNat - '0'.toNat)
  else if 'a' ≤ c ∧ c ≤ 'f' then some (c.toNat - 'a'.toNat + 10)
  else if 'A' ≤ c ∧ c ≤ 'F' then some (c.toNat - 'A'.toNat + 10)
  else none

/-- Percent-decoding at the character level. -/
def percentDecode : List Char → List Char
  | '%' :: a :: b :: rest =>
    match hexVal a, hexVal b with
    | some ha, some hb => Char.ofNat (16 * ha + hb) :: percentDecode rest
    | _, _ => '%' :: percentDecode (a :: b :: rest)
  | c :: rest => c :: percentDecode rest
  | [] => []

/-- Models JS `decodeURIComponent` for the single-byte sequences the router
exercises: each `%XX` pair becomes the character with that code; multi-byte
UTF-8 reassembly and the `URIError` on malformed input are not modelled
(malformed escapes are left as-is). -/
def decodeURIComponent (s : String) : String :=
  ⟨percentDecode s.data⟩

/-- One registered route: the original pattern, the compiled matcher, the
ordered parameter names, and the handler.  A handler that throws is modelled
by returning `Except.error`. -/
structure Route where
  pattern : String
  tokens : List PatternToken
  paramNames : List String
  handler : List (String × String) → Except String Unit

/-- The mutable state of the `Router` singleton: registered routes in
registration order and the parameters of the last successful match. -/
structure RouterState where
  routes : List Route
  currentParams : List (String × String)

/-- Models `Router.register`: compile the pattern, collect the parameter
names, append to the route list (registration order is match order). -/
def register (r : RouterState) (pattern : String)
    (handler : List (String × String) → Except String Unit) : RouterState :=
  let tokens := compileTokens pattern.data
  { r with routes :=
      r.routes ++ [⟨pattern, tokens, tokenParamNames tokens, handler⟩] }

/-- The route-scanning loop of `handleRoute`: first registered route whose
compiled pattern matches the whole path, with its captures. -/
def findMatch (routes : List Route) (path : String) :
    Option (Route × List String) :=
  match routes with
  | [] => none
  | route :: rest =>
    match matchTokens route.tokens path.data with
    | some caps => some (route, caps)
    | none => findMatch rest path

/-- Parameter extraction of `handleRoute`: bind captures positionally to
parameter names, URL-decoding each capture. -/
def zipParams (paramNames : List String) (caps : List String) :
    List (String × String) :=
  List.zipWith (fun n c => (n, decodeURIComponent c)) paramNames caps

/-- Observable outcome of one `handleRoute` dispatch: which route matched
with which parameters and what its handler did (an error is caught and
logged, never re-raised), or the not-found fallback. -/
inductive DispatchResult where
  | matched (pattern : String) (params : List (String × String))
      (handlerResult : Except String Unit)
  | notFound

/-- Models `Router.handleRoute` on a given current path: scan routes in
registration order; on the first whole-path match extract and decode the
parameters, store them in `currentParams` *before* running the handler, run
the handler inside try/catch; otherwise leave state unchanged and fall back
to 404 handling. -/
def handleRoute (r : RouterState) (path : String) :
    RouterState × DispatchResult :=
  match findMatch r.routes path with
  | some (route, caps) =>
    let params := zipParams route.paramNames caps
    ({ r with currentParams := params },
      .matched route.pattern params (route.handler params))
  | none => (r, .notFound)

/-- Models `parseQueryString` from `utils.js`: take the chunk after the first
`?` (or the whole string when there is no `?`), drop any `#` fragment, split
on `&`, and for each `key=value` chunk with a non-empty key record the
decoded pair; a later duplicate key overwrites an earlier one (JS object
assignment), which `objGet`'s last-binding-wins lookup reflects. -/
def parseQueryString (url : String) : List (String × String) :=
  let parts := splitOnChar '?' url.data
  let queryString := if parts.length > 1 then parts.getD 1 [] else url.data
  let clean := (splitOnChar '#' queryString).headD []
  if clean = [] then []
  else
    (splitOnChar '&' clean).foldl (fun acc p =>
      let kv := splitOnChar '=' p
      let key := kv.headD []
      let value := kv.getD 1 []
      if key = [] then acc
      else acc ++ [(decodeURIComponent ⟨key⟩, decodeURIComponent ⟨value⟩)]) []

/-- Models `Router.getParams`: parse the query string of the current URL; the
router state is returned unchanged (the method only reads). -/
def getParams (r : RouterState) (href : String) :
    List (String × String) × RouterState :=
  (parseQueryString href, r)

/-- Models `Router.getPathParams`: a copy of `currentParams`; the router
state is returned unchanged. -/
def getPathParams (r : RouterState) :
    List (String × String) × RouterState :=
  (r.currentParams, r)

/-- Models `Router.getAllParams`: the spread
`{...this.currentParams, ...this.getParams()}` — path parameters first, then
query parameters, so in `objGet`'s last-binding-wins model the query
parameters shadow path parameters on key collision. -/
def getAllParams (r : RouterState) (href : String) :
    List (String × String) × RouterState :=
  ((getPathParams r).1 ++ (getParams r href).1, r)

/-! Helper lemmas about the loader. -/

theorem fetchWithRetry_allFail {α : Type} (tr : Nat → Except String α)
    (msgs : Nat → String) (h : ∀ k, tr k = .error (msgs k)) :
    ∀ (r s : Nat) (d : Int),
      fetchWithRetry tr s r d = ⟨.error (msgs (s + r)), r + 1, (r : Int) * d⟩ := by
  intro r
  induction r with
  | zero => intro s d; simp [fetchWithRetry, h s]
  | succ n ih =>
    intro s d
    have hsn : s + 1 + n = s + (n + 1) := by omega
    simp [fetchWithRetry, h s, ih (s + 1), hsn]
    ring

theorem loadContent_allFail (st : LoaderState) (now : Int)
    (tr : Nat → Except String ContentPayload) (msgs : Nat → String)
    (h : ∀ k, tr k = .error (msgs k))
    (hv : isCacheValid st.contentCache st.cacheDuration now = false) :
    loadContent st now tr =
      contentFallback st (msgs st.maxRetries) (st.maxRetries + 1)
        ((st.maxRetries : Int) * st.retryDelay) := by
  unfold loadContent
  simp [hv, fetchWithRetry_allFail tr msgs h st.maxRetries 0 st.retryDelay]

theorem loadRecommendations_allFail (st : LoaderState) (now : Int)
    (tr : Nat → Except String RecsPayload) (msgs : Nat → String)
    (h : ∀ k, tr k = .error (msgs k))
    (hv : isCacheValid st.recsCache st.cacheDuration now = false) :
    loadRecommendations st now tr =
      recsFallback st (msgs st.maxRetries) (st.maxRetries + 1)
        ((st.maxRetries : Int) * st.retryDelay) := by
  unfold loadRecommendations
  simp [hv, fetchWithRetry_allFail tr msgs h st.maxRetries 0 st.retryDelay]

theorem loadConfig_allFail (st : LoaderState) (now : Int)
    (tr : Nat → Except String ConfigData) (msgs : Nat → String)
    (h : ∀ k, tr k = .error (msgs k))
    (hv : isCacheValid st.configCache st.cacheDuration now = false) :
    loadConfig st now tr =
      configFallback st (msgs st.maxRetries) (st.maxRetries + 1)
        ((st.maxRetries : Int) * st.retryDelay) := by
  unfold loadConfig
  simp [hv, fetchWithRetry_allFail tr msgs h st.maxRetries 0 st.retryDelay]

theorem contentFallback_calls (st : LoaderState) (e : String) (c : Nat)
    (w : Int) : (contentFallback st e c w).transportCalls = c := by
  cases h : st.contentCache.data <;> simp [contentFallback, h]

theorem recsFallback_calls (st : LoaderState) (e : String) (c : Nat)
    (w : Int) : (recsFallback st e c w).transportCalls = c := by
  cases h : st.recsCache.data <;> simp [recsFallback, h]

theorem configFallback_calls (st : LoaderState) (e : String) (c : Nat)
    (w : Int) : (configFallback st e c w).transportCalls = c := by
  cases h : st.configCache.data <;> simp [configFallback, h]

theorem contentFallback_waited (st : LoaderState) (e : String) (c : Nat)
    (w : Int) : (contentFallback st e c w).waited = w := by
  cases h : st.contentCache.data <;> simp [contentFallback, h]

/-! Claim theorems for the loader. -/

/-- C1: For each per-dataset load (`loadContent`, `loadConfig`,
`loadRecommendations`): if the fetch-with-retry attempt fails after
exhausting retries and the corresponding cache slot holds any prior data
(even stale, i.e. past its TTL), the load returns that stale data instead of
failing; only if the slot is completely empty does the load fail, raising an
error whose message wraps the underlying cause's message. -/
theorem stale_fallback_or_wrapped_error
    (st : LoaderState) (now : Int)
    (trC : Nat → Except String ContentPayload) (msC : Nat → String)
    (trR : Nat → Except String RecsPayload) (msR : Nat → String)
    (trF : Nat → Except String ConfigData) (msF : Nat → String)
    (hC : ∀ k, trC k = Except.error (msC k))
    (hR : ∀ k, trR k = Except.error (msR k))
    (hF : ∀ k, trF k = Except.error (msF k))
    (hvC : isCacheValid st.contentCache st.cacheDuration now = false)
    (hvR : isCacheValid st.recsCache st.cacheDuration now = false)
    (hvF : isCacheValid st.configCache st.cacheDuration now = false) :
    ((∀ d, st.contentCache.data = some d →
        (loadContent st now trC).result = Except.ok d)
      ∧ (st.contentCache.data = none →
        (loadContent st now trC).result =
          Except.error ("无法加载内容数据: " ++ msC st.maxRetries)))
    ∧ ((∀ d, st.recsCache.data = some d →
        (loadRecommendations st now trR).result = Except.ok d)
      ∧ (st.recsCache.data = none →
        (loadRecommendations st now trR).result =
          Except.error ("无法加载推荐数据: " ++ msR st.maxRetries)))
    ∧ ((∀ d, st.configCache.data = some d →
        (loadConfig st now trF).result = Except.ok d)
      ∧ (st.configCache.data = none →
        (loadConfig st now trF).result =
          Except.error ("无法加载配置数据: " ++ msF st.maxRetries))) := by
  rw [loadContent_allFail st now trC msC hC hvC,
    loadRecommendations_allFail st now trR msR hR hvR,
    loadConfig_allFail st now trF msF hF hvF]
  refine ⟨⟨fun d h => ?_, fun h => ?_⟩, ⟨fun d h => ?_, fun h => ?_⟩,
    ⟨fun d h => ?_, fun h => ?_⟩⟩ <;>
    simp [contentFallback, recsFallback, configFallback, h]

/-- Witness for C1 at a concrete stale cache entry and an always-failing
transport. -/
theorem stale_fallback_or_wrapped_error_witness :
    isCacheValid
      ({ initialState with
          contentCache := ⟨some [⟨"x", none, none⟩], some 1⟩ } :
        LoaderState).contentCache 3600000 10000000 = false
    ∧ (loadContent
        { initialState with
            contentCache := ⟨some [⟨"x", none, none⟩], some 1⟩ }
        10000000 (fun _ => Except.error "network")).result =
      Except.ok [⟨"x", none, none⟩] :=
  ⟨by decide,
    (stale_fallback_or_wrapped_error
      { initialState with
          contentCache := ⟨some [⟨"x", none, none⟩], some 1⟩ }
      10000000
      (fun _ => Except.error "network") (fun _ => "network")
      (fun _ => Except.error "network") (fun _ => "network")
      (fun _ => Except.error "network") (fun _ => "network")
      (fun _ => rfl) (fun _ => rfl) (fun _ => rfl)
      (by decide) (by decide) (by decide)).1.1
      [⟨"x", none, none⟩] rfl⟩

/-- C2: For every load against a transport that fails on every attempt, the
transport is invoked exactly `maxRetries + 1` times (with the default
`maxRetries = 3` of the constructor state, 4 attempts), sequentially with a
fixed `retryDelay` wait between consecutive attempts, and then the failure
propagates to the load's caller as the wrapped load error when the cache slot
is empty. -/
theorem retry_bound_exact
    (st : LoaderState) (now : Int)
    (trC : Nat → Except String ContentPayload) (msC : Nat → String)
    (trR : Nat → Except String RecsPayload) (msR : Nat → String)
    (trF : Nat → Except String ConfigData) (msF : Nat → String)
    (hC : ∀ k, trC k = Except.error (msC k))
    (hR : ∀ k, trR k = Except.error (msR k))
    (hF : ∀ k, trF k = Except.error (msF k))
    (hvC : isCacheValid st.contentCache st.cacheDuration now = false)
    (hvR : isCacheValid st.recsCache st.cacheDuration now = false)
    (hvF : isCacheValid st.configCache st.cacheDuration now = false) :
    (loadContent st now trC).transportCalls = st.maxRetries + 1
    ∧ (loadContent st now trC).waited = (st.maxRetries : Int) * st.retryDelay
    ∧ (loadRecommendations st now trR).transportCalls = st.maxRetries + 1
    ∧ (loadConfig st now trF).transportCalls = st.maxRetries + 1
    ∧ (st.contentCache.data = none →
        (loadContent st now trC).result =
          Except.error ("无法加载内容数据: " ++ msC st.maxRetries))
    ∧ (st.recsCache.data = none →
        (loadRecommendations st now trR).result =
          Except.error ("无法加载推荐数据: " ++ msR st.maxRetries))
    ∧ (st.configCache.data = none →
        (loadConfig st now trF).result =
          Except.error ("无法加载配置数据: " ++ msF st.maxRetries))
    ∧ (loadContent initialState now trC).transportCalls = 4 := by
  rw [loadContent_allFail st now trC msC hC hvC,
    loadRecommendations_allFail st now trR msR hR hvR,
    loadConfig_allFail st now trF msF hF hvF,
    loadContent_allFail initialState now trC msC hC rfl]
  refine ⟨contentFallback_calls .., contentFallback_waited ..,
    recsFallback_calls .., configFallback_calls .., ?_, ?_, ?_,
    contentFallback_calls ..⟩ <;> intro h <;>
    simp [contentFallback, recsFallback, configFallback, h]

/-- Witness for C2 on the constructor state and a concrete always-failing
transport: exactly 4 transport calls. -/
theorem retry_bound_exact_witness :
    isCacheValid initialState.contentCache initialState.cacheDuration 7 = false
    ∧ (loadContent initialState 7
        (fun _ => Except.error "boom")).transportCalls = 4 :=
  ⟨by decide,
    (retry_bound_exact initialState 7
      (fun _ => Except.error "boom") (fun _ => "boom")
      (fun _ => Except.error "boom") (fun _ => "boom")
      (fun _ => Except.error "boom") (fun _ => "boom")
      (fun _ => rfl) (fun _ => rfl) (fun _ => rfl)
      (by decide) (by decide) (by decide)).2.2.2.2.2.2.2⟩

/-- C7: For every cache slot set at a (truthy) timestamp `t`, TTL and current
time, the freshness check returns true iff data is present and the elapsed
time `now - t` is strictly below the TTL; and when the check is true at the
start of a load, the load returns the cached data immediately, with the
transport invoked zero times and the state unchanged. -/
theorem cache_freshness_and_no_transport
    {α : Type} (slot : CacheSlot α) (dur now t : Int)
    (hts : slot.timestamp = some t) (ht : t ≠ 0) :
    (isCacheValid slot dur now = true ↔ (slot.data.isSome ∧ now - t < dur))
    ∧ (∀ (st : LoaderState) (trC : Nat → Except String ContentPayload) d,
        st.contentCache.data = some d →
        isCacheValid st.contentCache st.cacheDuration now = true →
        loadContent st now trC = ⟨Except.ok d, st, 0, 0⟩)
    ∧ (∀ (st : LoaderState) (trR : Nat → Except String RecsPayload) d,
        st.recsCache.data = some d →
        isCacheValid st.recsCache st.cacheDuration now = true →
        loadRecommendations st now trR = ⟨Except.ok d, st, 0, 0⟩)
    ∧ (∀ (st : LoaderState) (trF : Nat → Except String ConfigData) d,
        st.configCache.data = some d →
        isCacheValid st.configCache st.cacheDuration now = true →
        loadConfig st now trF = ⟨Except.ok d, st, 0, 0⟩) := by
  refine ⟨?_, ?_, ?_, ?_⟩
  · cases hd : slot.data with
    | none => simp [isCacheValid, hts, hd]
    | some v => simp [isCacheValid, hts, hd, ht]
  · intro st trC d hd hv
    unfold loadContent
    simp [hv, hd]
  · intro st trR d hd hv
    unfold loadRecommendations
    simp [hv, hd]
  · intro st trF d hd hv
    unfold loadConfig
    simp [hv, hd]

/-- Witness for C7 at a concrete fresh slot. -/
theorem cache_freshness_and_no_transport_witness :
    (⟨some [⟨"x", none, none⟩], some 5⟩ :
        CacheSlot (List ContentItem)).timestamp = some 5
    ∧ (5 : Int) ≠ 0
    ∧ (isCacheValid
        (⟨some [⟨"x", none, none⟩], some 5⟩ : CacheSlot (List ContentItem))
        100 50 = true ↔
      ((⟨some [⟨"x", none, none⟩], some 5⟩ :
          CacheSlot (List ContentItem)).data.isSome ∧ (50 : Int) - 5 < 100)) :=
  ⟨rfl, by decide,
    (cache_freshness_and_no_transport
      (⟨some [⟨"x", none, none⟩], some 5⟩ : CacheSlot (List ContentItem))
      100 50 5 rfl (by decide)).1⟩

/-- C9: The `performance.cacheDuration` override carried by the configuration
payload is applied when configuration is successfully fetched and validated
(not served from cache): afterwards the loader's TTL is the override, the
other cache slots keep their original data and timestamps (no re-stamping),
and every later freshness check of those slots uses the new TTL against the
original timestamps; a config load answered from a valid cache leaves the
state (including the TTL) unchanged. -/
theorem ttl_override_on_successful_config_load
    (st : LoaderState) (now : Int) (tr : Nat → Except String ConfigData)
    (cfg : ConfigData) (p : PerformanceConfig) (c : Int)
    (hv : isCacheValid st.configCache st.cacheDuration now = false)
    (htr : tr 0 = Except.ok cfg)
    (hsite : cfg.site = true) (hct : cfg.contentTypes = true)
    (har : cfg.ageRatings = true)
    (hp : cfg.performance = some p) (hc : p.cacheDuration = some c)
    (hc0 : c ≠ 0) :
    (loadConfig st now tr).result = Except.ok cfg
    ∧ (loadConfig st now tr).state.cacheDuration = c
    ∧ (loadConfig st now tr).state.configCache = ⟨some cfg, some now⟩
    ∧ (loadConfig st now tr).state.contentCache = st.contentCache
    ∧ (loadConfig st now tr).state.recsCache = st.recsCache
    ∧ (∀ now' : Int,
        isCacheValid (loadConfig st now tr).state.contentCache
          (loadConfig st now tr).state.cacheDuration now'
          = isCacheValid st.contentCache c now')
    ∧ (∀ (st' : LoaderState) (now' : Int)
        (tr' : Nat → Except String ConfigData),
        isCacheValid st'.configCache st'.cacheDuration now' = true →
        (loadConfig st' now' tr').state = st') := by
  have hload : loadConfig st now tr =
      ⟨Except.ok cfg,
        { st with cacheDuration := c, configCache := ⟨some cfg, some now⟩ },
        1, 0⟩ := by
    unfold loadConfig
    simp [hv, fetchWithRetry, htr, hsite, hct, har, hp, hc, hc0]
  refine ⟨by rw [hload], by rw [hload], by rw [hload], by rw [hload],
    by rw [hload], ?_, ?_⟩
  · intro now'
    rw [hload]
  · intro st' now' tr' hv'
    unfold loadConfig
    simp [hv']

/-- Witness for C9: an override of 60000 ms on a fresh loader. -/
theorem ttl_override_on_successful_config_load_witness :
    isCacheValid initialState.configCache initialState.cacheDuration 0 = false
    ∧ (loadConfig initialState 0
        (fun _ => Except.ok ⟨true, true, true, some ⟨some 60000⟩⟩)).state.cacheDuration
      = 60000 :=
  ⟨by decide,
    (ttl_override_on_successful_config_load initialState 0
      (fun _ => Except.ok ⟨true, true, true, some ⟨some 60000⟩⟩)
      ⟨true, true, true, some ⟨some 60000⟩⟩ ⟨some 60000⟩ 60000
      (by decide) rfl rfl rfl rfl rfl rfl (by decide)).2.1⟩

/-! Helper lemmas about the search engine. -/

theorem foldl_collect {α β : Type} (p : α → Prop) [DecidablePred p]
    (f : α → β) (l : List α) (acc : List β) :
    l.foldl (fun a it => if p it then a ++ [f it] else a) acc
      = acc ++ (l.filter (fun it => decide (p it))).map f := by
  induction l generalizing acc with
  | nil => simp
  | cons x xs ih =>
    by_cases hp : p x
    · simp [List.foldl, hp, ih]
    · simp [List.foldl, hp, ih]

theorem foldl_score (t d : String) (kws : List String) (a : Nat) :
    kws.foldl (fun score kw =>
      let score := if strIncludes t kw then score + 2 else score
      if strIncludes d kw then score + 1 else score) a
    = a + (kws.map (fun kw =>
        (if strIncludes t kw then 2 else 0) +
        (if strIncludes d kw then 1 else 0))).sum := by
  induction kws generalizing a with
  | nil => simp
  | cons k ks ih =>
    simp only [List.foldl, List.map, List.sum_cons]
    rw [ih]
    by_cases h1 : strIncludes t k <;> by_cases h2 : strIncludes d k <;>
      simp [h1, h2] <;> omega

theorem itemScore_eq_scoreSpec (kws : List String) (it : ContentItem) :
    itemScore kws it = scoreSpec kws it := by
  have h := foldl_score (toLowerStr (it.title.getD ""))
    (toLowerStr (it.description.getD "")) kws 0
  simp only [Nat.zero_add] at h
  unfold itemScore scoreSpec termScore
  exact h

theorem search_eq (data : List ContentItem) (kw : String)
    (h1 : ¬trimChars kw.data = []) (h2 : ¬splitTerms kw = []) :
    search data kw
      = (((data.filter
            (fun it => decide (0 < itemScore (splitTerms kw) it))).map
          (fun it => (it, itemScore (splitTerms kw) it))).mergeSort
            (fun a b => decide (b.2 ≤ a.2))).map (fun r => r.1) := by
  have hlen : ¬(splitTerms kw).length = 0 := by
    simpa [List.length_eq_zero] using h2
  unfold search
  rw [if_neg h1, if_neg hlen]
  have hres := foldl_collect (fun it => 0 < itemScore (splitTerms kw) it)
    (fun it => (it, itemScore (splitTerms kw) it)) data []
  simp only [List.nil_append] at hres
  rw [hres]

theorem score_le_trans (a b c : ContentItem × Nat) :
    decide (b.2 ≤ a.2) → decide (c.2 ≤ b.2) → decide (c.2 ≤ a.2) := by
  simp only [decide_eq_true_eq]
  omega

theorem score_le_total (a b : ContentItem × Nat) :
    decide (b.2 ≤ a.2) || decide (a.2 ≤ b.2) := by
  rcases Nat.le_total b.2 a.2 with h | h <;> simp [h]

/-- C3: For every non-empty, non-whitespace-only keyword, `search` assigns
each item of the snapshot the score `scoreSpec` — the sum over the query's
terms (lower-cased, whitespace-split, duplicates kept) of 2 for a substring
hit in the lower-cased title plus 1 for a hit in the lower-cased description
(a term hitting both contributes 3) — keeps exactly the items with positive
score, and returns them sorted descending by that score. -/
theorem search_scores_and_sorts (data : List ContentItem) (kw : String)
    (h : ¬trimChars kw.data = []) :
    List.Perm (search data kw)
      (data.filter (fun it => decide (0 < scoreSpec (splitTerms kw) it)))
    ∧ (search data kw).Pairwise
        (fun a b =>
          scoreSpec (splitTerms kw) b ≤ scoreSpec (splitTerms kw) a) := by
  by_cases h2 : splitTerms kw = []
  · have hs : search data kw = [] := by
      unfold search
      rw [if_neg h]
      simp [h2]
    have hf : data.filter
        (fun it => decide (0 < scoreSpec (splitTerms kw) it)) = [] := by
      simp [h2, scoreSpec]
    rw [hs, hf]
    exact ⟨List.Perm.refl [], List.Pairwise.nil⟩
  · rw [search_eq data kw h h2]
    have hfil : data.filter
          (fun it => decide (0 < itemScore (splitTerms kw) it))
        = data.filter
          (fun it => decide (0 < scoreSpec (splitTerms kw) it)) := by
      apply List.filter_congr
      intro it _
      simp [itemScore_eq_scoreSpec]
    constructor
    · refine ((List.mergeSort_perm _ _).map _).trans ?_
      rw [List.map_map]
      have hid : ((fun r : ContentItem × Nat => r.1) ∘
          (fun it => (it, itemScore (splitTerms kw) it))) = id := rfl
      rw [hid, List.map_id, hfil]
    · rw [List.pairwise_map]
      have hsorted := @List.sorted_mergeSort (ContentItem × Nat)
        (fun a b => decide (b.2 ≤ a.2))
        score_le_trans score_le_total
        ((data.filter
          (fun it => decide (0 < itemScore (splitTerms kw) it))).map
          (fun it => (it, itemScore (splitTerms kw) it)))
      refine hsorted.imp_of_mem ?_
      intro a b ha hb hab
      have ha' : a.2 = itemScore (splitTerms kw) a.1 := by
        obtain ⟨it, _, rfl⟩ := List.mem_map.mp (List.mem_mergeSort.mp ha)
        rfl
      have hb' : b.2 = itemScore (splitTerms kw) b.1 := by
        obtain ⟨it, _, rfl⟩ := List.mem_map.mp (List.mem_mergeSort.mp hb)
        rfl
      have := decide_eq_true_eq.mp hab
      rw [ha', hb', itemScore_eq_scoreSpec, itemScore_eq_scoreSpec] at this
      exact this

/-- Witness for C3 on the spec's example dataset and the keyword
`"prince"`. -/
theorem search_scores_and_sorts_witness :
    ¬trimChars ("prince" : String).data = []
    ∧ (List.Perm
        (search [⟨"a", some "Little Prince", some "a story about a prince"⟩]
          "prince")
        (List.filter
          (fun it => decide (0 < scoreSpec (splitTerms "prince") it))
          [⟨"a", some "Little Prince", some "a story about a prince"⟩])
      ∧ (search [⟨"a", some "Little Prince", some "a story about a prince"⟩]
          "prince").Pairwise
          (fun a b =>
            scoreSpec (splitTerms "prince") b ≤
              scoreSpec (splitTerms "prince") a)) :=
  ⟨by decide,
    search_scores_and_sorts
      [⟨"a", some "Little Prince", some "a story about a prince"⟩]
      "prince" (by decide)⟩

/-- C10: After `setData` is called with a null or undefined argument, the
search engine's snapshot is the empty list, and every subsequent `search`
call with any keyword returns an empty list (search is total over the public
interface even when no data was ever supplied). -/
theorem setData_none_empty_and_search_total :
    setData none = [] ∧ ∀ kw : String, search (setData none) kw = [] := by
  refine ⟨rfl, fun kw => ?_⟩
  unfold search setData
  by_cases h : trimChars kw.data = []
  · rw [if_pos h]
  · rw [if_neg h]
    by_cases h2 : (splitTerms kw).length = 0
    · simp [h2]
    · simp [h2]

/-! Helper lemmas for the recommendation join. -/

theorem loadRecommendations_firstTry (st : LoaderState) (now : Int)
    (tr : Nat → Except String RecsPayload) (recs : List RecEntry)
    (hv : isCacheValid st.recsCache st.cacheDuration now = false)
    (h : tr 0 = Except.ok ⟨some recs⟩) :
    loadRecommendations st now tr =
      ⟨Except.ok recs, { st with recsCache := ⟨some recs, some now⟩ },
        1, 0⟩ := by
  unfold loadRecommendations
  simp [hv, fetchWithRetry, h]

theorem loadContent_firstTry (st : LoaderState) (now : Int)
    (tr : Nat → Except String ContentPayload) (content : List ContentItem)
    (hv : isCacheValid st.contentCache st.cacheDuration now = false)
    (h : tr 0 = Except.ok ⟨some content⟩) :
    loadContent st now tr =
      ⟨Except.ok content, { st with contentCache := ⟨some content, some now⟩ },
        1, 0⟩ := by
  unfold loadContent
  simp [hv, fetchWithRetry, h]

/-- Specification-side description of the recommendation join before sorting:
for each recommendation entry in order, the content item whose `id` equals
the entry's `contentId`, annotated with the entry's `reason` and `priority`;
entries with no matching item are dropped. -/
def annotatedEntries (recs : List RecEntry) (content : List ContentItem) :
    List RecommendedItem :=
  recs.filterMap (fun rec =>
    (content.find? (fun c => c.id == rec.contentId)).map
      (fun item => ⟨item, rec.reason, rec.priority⟩))

theorem recommendedJoin_eq (recs : List RecEntry)
    (content : List ContentItem) :
    recommendedJoin recs content
      = (annotatedEntries recs content).mergeSort
          (fun a b =>
            decide (a.recommendationPriority ≤ b.recommendationPriority)) := by
  unfold recommendedJoin annotatedEntries
  congr 1
  rw [List.reduceOption, List.filterMap_map]
  congr 1
  funext rec
  cases h : content.find? (fun c => c.id == rec.contentId) <;> simp [h]

theorem prio_le_trans (a b c : RecommendedItem) :
    decide (a.recommendationPriority ≤ b.recommendationPriority) →
    decide (b.recommendationPriority ≤ c.recommendationPriority) →
    decide (a.recommendationPriority ≤ c.recommendationPriority) := by
  simp only [decide_eq_true_eq]
  omega

theorem prio_le_total (a b : RecommendedItem) :
    decide (a.recommendationPriority ≤ b.recommendationPriority)
      || decide (b.recommendationPriority ≤ a.recommendationPriority) := by
  rcases Int.le_total a.recommendationPriority b.recommendationPriority
    with h | h <;> simp [h]

/-- C5: `getRecommendedContent` returns, for each recommendation entry whose
`contentId` matches an existing content item's `id`, that item annotated with
the entry's `reason` and `priority`; entries with no matching item are
silently dropped; the result is sorted ascending by priority, and among
entries of equal priority (more generally, whenever an earlier entry's
priority is at most a later one's) the original recommendation order is
preserved. -/
theorem recommended_join_annotates_drops_sorts
    (recs : List RecEntry) (content : List ContentItem) (now : Int)
    (trR : Nat → Except String RecsPayload)
    (trC : Nat → Except String ContentPayload)
    (hR : ∀ k, trR k = Except.ok ⟨some recs⟩)
    (hC : ∀ k, trC k = Except.ok ⟨some content⟩) :
    (getRecommendedContent initialState now trR trC).result
      = Except.ok (recommendedJoin recs content)
    ∧ List.Perm (recommendedJoin recs content) (annotatedEntries recs content)
    ∧ (recommendedJoin recs content).Pairwise
        (fun a b => a.recommendationPriority ≤ b.recommendationPriority)
    ∧ (∀ a b : RecommendedItem,
        List.Sublist [a, b] (annotatedEntries recs content) →
        a.recommendationPriority ≤ b.recommendationPriority →
        List.Sublist [a, b] (recommendedJoin recs content)) := by
  have h1 : loadRecommendations initialState now trR =
      ⟨Except.ok recs, { initialState with recsCache := ⟨some recs, some now⟩ },
        1, 0⟩ :=
    loadRecommendations_firstTry _ _ _ _ rfl (hR 0)
  have h2 : loadContent
      { initialState with recsCache := ⟨some recs, some now⟩ } now trC =
      ⟨Except.ok content,
        { { initialState with recsCache := ⟨some recs, some now⟩ } with
            contentCache := ⟨some content, some now⟩ }, 1, 0⟩ :=
    loadContent_firstTry _ _ _ _ rfl (hC 0)
  refine ⟨?_, ?_, ?_, ?_⟩
  · unfold getRecommendedContent
    simp [h1, h2]
  · rw [recommendedJoin_eq]
    exact List.mergeSort_perm _ _
  · rw [recommendedJoin_eq]
    exact (List.sorted_mergeSort prio_le_trans prio_le_total
      (annotatedEntries recs content)).imp (fun h => decide_eq_true_eq.mp h)
  · intro a b hsub hle
    rw [recommendedJoin_eq]
    exact List.pair_sublist_mergeSort prio_le_trans prio_le_total
      (decide_eq_true hle) hsub

/-- Witness for C5 on the spec's example: recommendations for ids `a`
(priority 2), `missing` (priority 1), `b` (priority 0) against content items
`a`, `b`. -/
theorem recommended_join_annotates_drops_sorts_witness :
    (∀ k : Nat,
      (fun _ : Nat => (Except.ok ⟨some [⟨"a", some "r1", 2⟩,
          ⟨"missing", none, 1⟩, ⟨"b", none, 0⟩]⟩ :
        Except String RecsPayload)) k =
      Except.ok ⟨some [⟨"a", some "r1", 2⟩, ⟨"missing", none, 1⟩,
        ⟨"b", none, 0⟩]⟩)
    ∧ (getRecommendedContent initialState 0
        (fun _ => Except.ok ⟨some [⟨"a", some "r1", 2⟩,
          ⟨"missing", none, 1⟩, ⟨"b", none, 0⟩]⟩)
        (fun _ => Except.ok ⟨some [⟨"a", none, none⟩,
          ⟨"b", none, none⟩]⟩)).result
      = Except.ok (recommendedJoin
          [⟨"a", some "r1", 2⟩, ⟨"missing", none, 1⟩, ⟨"b", none, 0⟩]
          [⟨"a", none, none⟩, ⟨"b", none, none⟩]) :=
  ⟨fun _ => rfl,
    (recommended_join_annotates_drops_sorts
      [⟨"a", some "r1", 2⟩, ⟨"missing", none, 1⟩, ⟨"b", none, 0⟩]
      [⟨"a", none, none⟩, ⟨"b", none, none⟩] 0 _ _
      (fun _ => rfl) (fun _ => rfl)).1⟩

/-! Helper lemmas for the router. -/

theorem objGet_append (a b : List (String × String)) (k : String) :
    objGet (a ++ b) k = (objGet b k).or (objGet a k) := by
  unfold objGet
  rw [List.reverse_append, List.find?_append]
  cases h : b.reverse.find? (fun p => p.1 == k) <;> simp [h, Option.or]

theorem findMatch_append_none (pre : List Route) (path : String)
    (hpre : ∀ q ∈ pre, matchTokens q.tokens path.data = none)
    (rest : List Route) :
    findMatch (pre ++ rest) path = findMatch rest path := by
  induction pre with
  | nil => rfl
  | cons q qs ih =>
    have hq := hpre q (List.mem_cons_self q qs)
    simp only [List.cons_append, findMatch, hq]
    exact ih (fun r hr => hpre r (List.mem_cons_of_mem q hr))

/-! Claim theorems for the router. -/

/-- C4 (counterexample): with current path parameters `{type: "books"}` and
the query string `?type=movies`, `getAllParams` yields `movies` for `type` —
the query-string parameter, not the path parameter, wins the key collision,
because the code spreads `getParams()` after `currentParams`. -/
theorem all_params_path_precedence_counterexample :
    objGet (getPathParams (⟨[], [("type", "books")]⟩ : RouterState)).1 "type"
      = some "books"
    ∧ objGet (getParams (⟨[], [("type", "books")]⟩ : RouterState)
        "/category/books?type=movies").1 "type" = some "movies"
    ∧ objGet (getAllParams (⟨[], [("type", "books")]⟩ : RouterState)
        "/category/books?type=movies").1 "type" = some "movies"
    ∧ ¬ objGet (getAllParams (⟨[], [("type", "books")]⟩ : RouterState)
        "/category/books?type=movies").1 "type" = some "books" := by
  refine ⟨rfl, rfl, rfl, ?_⟩
  decide

/-- C4 (amended): for every router state and every key present in both the
current path parameters and the query-string parameters, `getAllParams`
returns the query-string parameter's value for that key (query parameters
take precedence on key collision, since they are spread after the path
parameters), while `getParams`, `getPathParams` and `getAllParams` are pure
reads that leave the router state unchanged. -/
theorem all_params_query_precedence
    (r : RouterState) (href k v1 v2 : String)
    (_hp : objGet (getPathParams r).1 k = some v1)
    (hq : objGet (getParams r href).1 k = some v2) :
    objGet (getAllParams r href).1 k = some v2
    ∧ (getParams r href).2 = r
    ∧ (getPathParams r).2 = r
    ∧ (getAllParams r href).2 = r := by
  refine ⟨?_, rfl, rfl, rfl⟩
  have hq' : objGet (parseQueryString href) k = some v2 := hq
  show objGet (r.currentParams ++ parseQueryString href) k = some v2
  rw [objGet_append, hq']
  rfl

/-- Witness for the amended C4 at the counterexample's input. -/
theorem all_params_query_precedence_witness :
    objGet (getPathParams (⟨[], [("type", "books")]⟩ : RouterState)).1 "type"
      = some "books"
    ∧ objGet (getParams (⟨[], [("type", "books")]⟩ : RouterState)
        "/category/books?type=movies").1 "type" = some "movies"
    ∧ (objGet (getAllParams (⟨[], [("type", "books")]⟩ : RouterState)
        "/category/books?type=movies").1 "type" = some "movies"
      ∧ (getParams (⟨[], [("type", "books")]⟩ : RouterState)
          "/category/books?type=movies").2
        = (⟨[], [("type", "books")]⟩ : RouterState)
      ∧ (getPathParams (⟨[], [("type", "books")]⟩ : RouterState)).2
        = (⟨[], [("type", "books")]⟩ : RouterState)
      ∧ (getAllParams (⟨[], [("type", "books")]⟩ : RouterState)
          "/category/books?type=movies").2
        = (⟨[], [("type", "books")]⟩ : RouterState)) :=
  ⟨rfl, rfl,
    all_params_query_precedence ⟨[], [("type", "books")]⟩
      "/category/books?type=movies" "type" "books" "movies" rfl rfl⟩

/-- C6: `handleRoute` tests the current path against the registered patterns
in registration order and the first whole-path match wins; a registered
pattern `/category/:type` matched against `/category/books` invokes its
handler with `{type: "books"}` (captures bound positionally to parameter
names and URL-decoded), while `/category/books/extra` matches no route (no
partial or prefix match) and triggers the not-found fallback. -/
theorem first_match_wins_and_extracts_params
    (pre post : List Route) (route : Route)
    (cp : List (String × String)) (path : String) (caps : List String)
    (hpre : ∀ q ∈ pre, matchTokens q.tokens path.data = none)
    (hmatch : matchTokens route.tokens path.data = some caps) :
    handleRoute ⟨pre ++ route :: post, cp⟩ path =
      (⟨pre ++ route :: post, zipParams route.paramNames caps⟩,
        .matched route.pattern (zipParams route.paramNames caps)
          (route.handler (zipParams route.paramNames caps)))
    ∧ (∀ (h : List (String × String) → Except String Unit)
        (cp' : List (String × String)),
        handleRoute ⟨(register ⟨[], cp'⟩ "/category/:type" h).routes, cp'⟩
            "/category/books"
          = (⟨(register ⟨[], cp'⟩ "/category/:type" h).routes,
              [("type", "books")]⟩,
            .matched "/category/:type" [("type", "books")]
              (h [("type", "books")]))
        ∧ handleRoute ⟨(register ⟨[], cp'⟩ "/category/:type" h).routes, cp'⟩
            "/category/books/extra"
          = (⟨(register ⟨[], cp'⟩ "/category/:type" h).routes, cp'⟩,
            .notFound)) := by
  constructor
  · unfold handleRoute
    rw [findMatch_append_none pre path hpre]
    simp [findMatch, hmatch]
  · intro h cp'
    exact ⟨rfl, rfl⟩

/-- Witness for C6 with the compiled `/category/:type` route as the first
(and only) registered route. -/
theorem first_match_wins_and_extracts_params_witness :
    (∀ q ∈ ([] : List Route),
      matchTokens q.tokens ("/category/books" : String).data = none)
    ∧ matchTokens (compileTokens ("/category/:type" : String).data)
        ("/category/books" : String).data = some ["books"]
    ∧ handleRoute
        ⟨[] ++ ⟨"/category/:type",
            compileTokens ("/category/:type" : String).data,
            ["type"], fun _ => Except.ok ()⟩ :: [], []⟩
        "/category/books" =
      (⟨[] ++ ⟨"/category/:type",
          compileTokens ("/category/:type" : String).data,
          ["type"], fun _ => Except.ok ()⟩ :: [], zipParams ["type"] ["books"]⟩,
        .matched "/category/:type" (zipParams ["type"] ["books"])
          ((fun _ => Except.ok ()) (zipParams ["type"] ["books"]))) :=
  ⟨fun q hq => absurd hq (List.not_mem_nil q), by decide,
    (first_match_wins_and_extracts_params []
      [] ⟨"/category/:type", compileTokens ("/category/:type" : String).data,
        ["type"], fun _ => Except.ok ()⟩ [] "/category/books" ["books"]
      (fun q hq => absurd hq (List.not_mem_nil q)) (by decide)).1⟩

/-- C8: for a matched route whose handler raises an error, `handleRoute`
catches the error (recording it in the dispatch outcome rather than
re-raising, so dispatch completes normally), and `currentParams` is updated
to the newly extracted parameters before the handler runs, so the handler
failure does not revert the current route state. -/
theorem handler_error_caught_and_params_kept
    (pre post : List Route) (route : Route)
    (cp : List (String × String)) (path : String) (caps : List String)
    (emsg : String)
    (hpre : ∀ q ∈ pre, matchTokens q.tokens path.data = none)
    (hmatch : matchTokens route.tokens path.data = some caps)
    (herr : route.handler (zipParams route.paramNames caps)
      = Except.error emsg) :
    (handleRoute ⟨pre ++ route :: post, cp⟩ path).1.currentParams
      = zipParams route.paramNames caps
    ∧ (handleRoute ⟨pre ++ route :: post, cp⟩ path).2
      = .matched route.pattern (zipParams route.paramNames caps)
          (Except.error emsg) := by
  unfold handleRoute
  rw [findMatch_append_none pre path hpre]
  simp [findMatch, hmatch, herr]

/-- Witness for C8 with a handler that always throws. -/
theorem handler_error_caught_and_params_kept_witness :
    matchTokens (compileTokens ("/category/:type" : String).data)
        ("/category/books" : String).data = some ["books"]
    ∧ ((fun _ : List (String × String) =>
        (Except.error "boom" : Except String Unit))
          (zipParams ["type"] ["books"]) = Except.error "boom")
    ∧ (handleRoute
        ⟨[] ++ ⟨"/category/:type",
            compileTokens ("/category/:type" : String).data,
            ["type"], fun _ => Except.error "boom"⟩ :: [], [("old", "x")]⟩
        "/category/books").1.currentParams = zipParams ["type"] ["books"] :=
  ⟨by decide, rfl,
    (handler_error_caught_and_params_kept [] []
      ⟨"/category/:type", compileTokens ("/category/:type" : String).data,
        ["type"], fun _ => Except.error "boom"⟩
      [("old", "x")] "/category/books" ["books"] "boom"
      (fun q hq => absurd hq (List.not_mem_nil q)) (by decide) rfl).1⟩

end ChildLearn
